import Mathlib

/-!
Shallow embedding of the wallet_system repository (Go / Gin / GORM / Redis).

The ledger store (MySQL via GORM) is modelled as lists of rows with
autoincrement counters; `float64` money amounts are modelled as `ℚ`
(ideal decimal arithmetic, per the data model's "decimal-precision
amount"); the Redis cache is modelled as association lists keyed by the
exact key strings the handlers build.  Each HTTP handler becomes a pure
function from a system state and its request parameters to a result and
a new system state.  JSON error responses are modelled by `ApiError`
(constructor = HTTP status class, argument = the literal message string
the handler puts in the "error" field).
-/

/-- Row of the users table (internal/domain/user.go). -/
structure User where
  ID : Nat
  Username : String
  Password : String
  Role : String
deriving DecidableEq, Repr

/-- Row of the wallets table (internal/domain/wallet.go); `Balance` is
`float64` in the source, modelled as `ℚ`. -/
structure Wallet where
  ID : Nat
  UserID : Nat
  Balance : ℚ
deriving DecidableEq, Repr

/-- Row of the transactions table (internal/domain/transaction.go).
`Type'` stands for the Go field `Type` (`Type` is reserved in Lean);
`CreatedAt` is the `autoCreateTime:milli` timestamp in milliseconds. -/
structure Transaction where
  ID : Nat
  FromWalletID : Option Nat
  ToWalletID : Option Nat
  Amount : ℚ
  Type' : String
  CreatedAt : Nat
deriving DecidableEq, Repr

/-- The ledger store: the three relations, the autoincrement counters of
their primary keys, and a clock supplying `autoCreateTime` stamps. -/
structure Store where
  users : List User
  wallets : List Wallet
  transactions : List Transaction
  nextUserID : Nat
  nextWalletID : Nat
  nextTxID : Nat
  clock : Nat
deriving DecidableEq, Repr

/-- Value cached under a `txhistory:user:...` key: the response struct the
handler marshals into Redis (transactions page, page, page_size, total,
total_pages). -/
structure HistoryPage where
  transactions : List Transaction
  page : Nat
  pageSize : Nat
  total : Nat
  totalPages : Nat
deriving DecidableEq, Repr

/-- The Redis cache, restricted to the two key families the wallet
handlers read and write: whole `Wallet` values under `wallet:user:<id>`
keys and `HistoryPage` values under `txhistory:user:...` keys.
Time-to-live expiry is not modelled (entries persist until deleted);
all stale-read scenarios below happen within the 60-second TTL anyway. -/
structure Cache where
  walletEntries : List (String × Wallet)
  historyEntries : List (String × HistoryPage)
deriving DecidableEq, Repr

/-- Full system state: ledger store plus cache. -/
structure Sys where
  store : Store
  cache : Cache
deriving DecidableEq, Repr

/-- GetCache (internal/utils, cache helpers) on a `wallet:user:*` key. -/
def GetCacheWallet (c : Cache) (key : String) : Option Wallet :=
  (c.walletEntries.find? (fun e => e.1 == key)).map Prod.snd

/-- GetCache on a `txhistory:user:*` key. -/
def GetCacheHistory (c : Cache) (key : String) : Option HistoryPage :=
  (c.historyEntries.find? (fun e => e.1 == key)).map Prod.snd

/-- SetCache on a `wallet:user:*` key: overwrite the entry for `key`. -/
def SetCacheWallet (c : Cache) (key : String) (w : Wallet) : Cache :=
  { c with walletEntries := (key, w) :: c.walletEntries.filter (fun e => e.1 != key) }

/-- SetCache on a `txhistory:user:*` key. -/
def SetCacheHistory (c : Cache) (key : String) (h : HistoryPage) : Cache :=
  { c with historyEntries := (key, h) :: c.historyEntries.filter (fun e => e.1 != key) }

/-- DeleteCache: remove one key (from whichever table holds it). -/
def DeleteCache (c : Cache) (key : String) : Cache :=
  { walletEntries := c.walletEntries.filter (fun e => e.1 != key),
    historyEntries := c.historyEntries.filter (fun e => e.1 != key) }

/-- Fold DeleteCache over a list of keys. -/
def DeleteCacheKeys (c : Cache) (keys : List String) : Cache :=
  keys.foldl DeleteCache c

/-- Cache key "wallet:user:" + itoa(userID) built by the wallet handlers. -/
def walletCacheKey (userID : Nat) : String :=
  "wallet:user:" ++ toString userID

/-- Cache key "txhistory:user:<uid>:page:<page>:size:<size>". -/
def txHistoryCacheKey (userID page size : Nat) : String :=
  "txhistory:user:" ++ toString userID ++ ":page:" ++ toString page
    ++ ":size:" ++ toString size

/-- The bounded history invalidation loop `for i := 1; i <= 5; i++` with
hard-coded `:size:20`, shared by DepositHandler and TransferHandler. -/
def txHistoryInvalidationKeys (userID : Nat) : List String :=
  (List.range 5).map (fun i => txHistoryCacheKey userID (i + 1) 20)

/-- Keys DepositHandler deletes after a successful deposit. -/
def depositInvalidationKeys (userID : Nat) : List String :=
  walletCacheKey userID :: txHistoryInvalidationKeys userID

/-- Keys TransferHandler deletes after a successful transfer (both users'
wallet keys and both users' first five size-20 history pages). -/
def transferInvalidationKeys (fromUserID toUserID : Nat) : List String :=
  walletCacheKey fromUserID :: walletCacheKey toUserID ::
    (txHistoryInvalidationKeys fromUserID ++ txHistoryInvalidationKeys toUserID)

/-- strings.ToLower; Lean's `Char.toLower` agrees with Go's per-rune
lowercasing on the ASCII letters the registration validator admits. -/
def goToLower (s : String) : String :=
  String.mk (s.data.map Char.toLower)

/-- MySQL string equality under the schema's default collation: the
`username` column is created by AutoMigrate with no explicit collation,
and MySQL's default collations are case-insensitive, so `username = ?`
matches strings that differ only in letter case.  On the
alphabet-only usernames the registration validator admits this is
exactly equality of simple lowercasings. -/
def mysqlCiEq (a b : String) : Bool :=
  goToLower a == goToLower b

/-- GORM `First` with `Where("username = ?", name)`: first users row whose
stored username equals the query string under the column's
(case-insensitive) collation; rows are kept in primary-key order. -/
def findUserByUsername (st : Store) (name : String) : Option User :=
  st.users.find? (fun u => mysqlCiEq u.Username name)

/-- GORM `First` with `Where("user_id = ?", uid)` on wallets. -/
def findWalletByUser (st : Store) (uid : Nat) : Option Wallet :=
  st.wallets.find? (fun w => w.UserID == uid)

/-- GORM `Model(&w).Update("balance", gorm.Expr(...))`: set the balance of
the row whose primary key is `wid` to a function of its current stored
value (the arithmetic happens on the database side, not on a snapshot). -/
def updateWalletBalance (st : Store) (wid : Nat) (f : ℚ → ℚ) : Store :=
  { st with wallets :=
      st.wallets.map (fun w => if w.ID == wid then { w with Balance := f w.Balance } else w) }

/-- GORM `Create` of a transactions row: autoincrement ID, autoCreateTime
stamp from the clock. -/
def insertTransaction (st : Store) (fromW toW : Option Nat) (amount : ℚ)
    (ty : String) : Store :=
  { st with
    transactions := st.transactions ++
      [{ ID := st.nextTxID, FromWalletID := fromW, ToWalletID := toW,
         Amount := amount, Type' := ty, CreatedAt := st.clock }],
    nextTxID := st.nextTxID + 1,
    clock := st.clock + 1 }

/-- Typed failure results; the constructor is the HTTP status the handler
answers with and the string is the literal "error" message.  The spec's
`InsufficientFunds` is the code's 400 "Insufficient funds", its
`SelfTransfer` is 400 "Cannot transfer to yourself", its `NotFound`
is 404, its `InvalidAmount` is 400 "Invalid request" / "Invalid amount",
its `AlreadyExists` is 400 "Wallet already exists" / "Username already
exists". -/
inductive ApiError where
  | badRequest (msg : String)
  | notFound (msg : String)
  | unauthorized
  | internalError (msg : String)
deriving DecidableEq, Repr

/-- TransferRequest (to_username, amount); binding `required,gt=0`. -/
structure TransferRequest where
  ToUsername : String
  Amount : ℚ
deriving DecidableEq, Repr

/-- DepositRequest (amount); binding `required,gt=0`. -/
structure DepositRequest where
  Amount : ℚ
deriving DecidableEq, Repr

/-- RegisterRequest (username, password), both required. -/
structure RegisterRequest where
  Username : String
  Password : String
deriving DecidableEq, Repr

/-- Value of a decimal digit string, most significant first. -/
def digitsToNat (l : List Char) : Nat :=
  l.foldl (fun acc c => acc * 10 + (c.toNat - Char.toNat '0')) 0

/-- Digit-list parse: at least one character, all decimal digits. -/
def parseDigits (l : List Char) : Option Nat :=
  if l.isEmpty || !(l.all Char.isDigit) then none else some (digitsToNat l)

/-- strconv.Atoi: optional leading sign then one or more decimal digits,
`none` on any other input (the int64 overflow failure of the real Atoi is
not reachable at the sizes the claims use and is not modelled). -/
def goAtoi (s : String) : Option Int :=
  match s.data with
  | '+' :: rest => (parseDigits rest).map (fun n => (n : Int))
  | '-' :: rest => (parseDigits rest).map (fun n => -(n : Int))
  | l => (parseDigits l).map (fun n => (n : Int))

/-- Effective page number in GetTransactionHistoryHandler: default 1,
replaced by the query value only when it parses and is positive. -/
def effectivePage (q : Option String) : Nat :=
  match q with
  | none => 1
  | some p =>
    match goAtoi p with
    | some v => if 0 < v then v.toNat else 1
    | none => 1

/-- Effective page size in GetTransactionHistoryHandler: default 20,
replaced by the query value only when it parses and `v > 0 && v <= 100`
(any other value, e.g. 150, leaves the default in place). -/
def effectivePageSize (q : Option String) : Nat :=
  match q with
  | none => 20
  | some p =>
    match goAtoi p with
    | some v => if 0 < v ∧ v ≤ 100 then v.toNat else 20
    | none => 20

/-- Predicate of `Where("from_wallet_id = ? OR to_wallet_id = ?", id, id)`. -/
def txMatchesWallet (wid : Nat) (t : Transaction) : Bool :=
  t.FromWalletID == some wid || t.ToWalletID == some wid

/-- Ordering requested by `Order("created_at desc")`: creation times are
pairwise nonincreasing.  The query names no other sort column, so this
relation (which does not separate rows with equal `CreatedAt`) is the
whole of the ordering contract. -/
def createdAtDesc (a b : Transaction) : Prop :=
  b.CreatedAt ≤ a.CreatedAt

instance : DecidableRel createdAtDesc :=
  fun a b => inferInstanceAs (Decidable (b.CreatedAt ≤ a.CreatedAt))

instance : IsTotal Transaction createdAtDesc :=
  ⟨fun a b => Nat.le_total b.CreatedAt a.CreatedAt⟩

instance : IsTrans Transaction createdAtDesc :=
  ⟨fun _ _ _ hab hbc => Nat.le_trans hbc hab⟩

/-- Contract of the history row query (`Where` source-or-destination +
`Order("created_at desc")` + no tie-break column): an admissible result
is any permutation of the matching rows that is sorted by `createdAtDesc`.
The relative order of rows with equal creation time is NOT determined by
the query; the executable handler below fixes one admissible order (a
stable sort) so that scenario claims can be computed. -/
def historyQueryAdmissible (st : Store) (wid : Nat) (l : List Transaction) : Prop :=
  (st.transactions.filter (txMatchesWallet wid)).Perm l ∧ l.Sorted createdAtDesc

/-- Response of GetTransactionHistoryHandler (the gin.H the code emits). -/
structure HistoryResponse where
  transactions : List Transaction
  page : Nat
  pageSize : Nat
  total : Nat
  totalPages : Nat
  cached : Bool
deriving DecidableEq, Repr

/-- GetTransactionHistoryHandler: wallet lookup, pagination parameters,
cache-first read, then count + `ORDER BY created_at desc` page fetch,
`totalPages := (int(total) + pageSize - 1) / pageSize`, and caching of
the response under the page/size-specific key. -/
def GetTransactionHistoryHandler (s : Sys) (userID : Nat)
    (pageQ pageSizeQ : Option String) : Except ApiError HistoryResponse × Sys :=
  match findWalletByUser s.store userID with
  | none => (.error (.notFound "Wallet not found"), s)
  | some wallet =>
    let page := effectivePage pageQ
    let pageSize := effectivePageSize pageSizeQ
    let offset := (page - 1) * pageSize
    let cacheKey := txHistoryCacheKey userID page pageSize
    match GetCacheHistory s.cache cacheKey with
    | some hp =>
      (.ok { transactions := hp.transactions, page := hp.page, pageSize := hp.pageSize,
             total := hp.total, totalPages := hp.totalPages, cached := true }, s)
    | none =>
      let matching := s.store.transactions.filter (txMatchesWallet wallet.ID)
      let total := matching.length
      let rows := ((List.insertionSort createdAtDesc matching).drop offset).take pageSize
      let totalPages := (total + pageSize - 1) / pageSize
      let hp : HistoryPage :=
        { transactions := rows, page := page, pageSize := pageSize,
          total := total, totalPages := totalPages }
      (.ok { transactions := rows, page := page, pageSize := pageSize,
             total := total, totalPages := totalPages, cached := false },
       { s with cache := SetCacheHistory s.cache cacheKey hp })

/-- Everything TransferHandler does before entering the atomic unit
(validation, destination resolution by exact username comparison, the
two wallet reads, and the balance sufficiency pre-check).  These are
pure reads: the store is not modified.  Returns the resolved target
user and the two wallet rows as read. -/
def transferCheck (st : Store) (fromUserID : Nat) (req : TransferRequest) :
    Except ApiError (User × Wallet × Wallet) :=
  if req.Amount ≤ 0 then .error (.badRequest "Invalid request")
  else
    match findUserByUsername st req.ToUsername with
    | none => .error (.notFound "Target user not found")
    | some toUser =>
      if toUser.ID == fromUserID then .error (.badRequest "Cannot transfer to yourself")
      else
        match findWalletByUser st fromUserID with
        | none => .error (.notFound "Sender wallet not found")
        | some fromWallet =>
          match findWalletByUser st toUser.ID with
          | none => .error (.notFound "Recipient wallet not found")
          | some toWallet =>
            if fromWallet.Balance < req.Amount then .error (.badRequest "Insufficient funds")
            else .ok (toUser, fromWallet, toWallet)

/-- Body of the `db.Transaction` closure in TransferHandler: an
UNCONDITIONAL store-side debit of the sender row, credit of the
recipient row, and creation of one `transfer` entry.  The update has no
`balance >= amount` guard: it subtracts from whatever the row's balance
is at commit time (the sufficiency check lives only in the pre-check). -/
def transferTxBody (st : Store) (fromWallet toWallet : Wallet) (amount : ℚ) : Store :=
  insertTransaction
    (updateWalletBalance (updateWalletBalance st fromWallet.ID (fun b => b - amount))
      toWallet.ID (fun b => b + amount))
    (some fromWallet.ID) (some toWallet.ID) amount "transfer"

/-- TransferHandler, sequential semantics: the pre-checks and the atomic
unit run back-to-back on the same state, then both users' cache keys are
deleted. -/
def TransferHandler (s : Sys) (fromUserID : Nat) (req : TransferRequest) :
    Except ApiError String × Sys :=
  match transferCheck s.store fromUserID req with
  | .error e => (.error e, s)
  | .ok (toUser, fromWallet, toWallet) =>
    (.ok "Transfer successful",
     { store := transferTxBody s.store fromWallet toWallet req.Amount,
       cache := DeleteCacheKeys s.cache (transferInvalidationKeys fromUserID toUser.ID) })

/-- DepositHandler: amount validation, wallet lookup, atomic unit
(store-side balance increment + one `deposit` entry), cache
invalidation, and the constant success message the code returns
(`gin.H{"message": "Deposit successful"}` — no balance field). -/
def DepositHandler (s : Sys) (userID : Nat) (req : DepositRequest) :
    Except ApiError String × Sys :=
  if req.Amount ≤ 0 then (.error (.badRequest "Invalid amount"), s)
  else
    match findWalletByUser s.store userID with
    | none => (.error (.notFound "Wallet not found"), s)
    | some wallet =>
      (.ok "Deposit successful",
       { store := insertTransaction
           (updateWalletBalance s.store wallet.ID (fun b => b + req.Amount))
           none (some wallet.ID) req.Amount "deposit",
         cache := DeleteCacheKeys s.cache (depositInvalidationKeys userID) })

/-- CreateWalletHandler: one wallet per user, created with zero balance. -/
def CreateWalletHandler (s : Sys) (userID : Nat) : Except ApiError Wallet × Sys :=
  match findWalletByUser s.store userID with
  | some _ => (.error (.badRequest "Wallet already exists"), s)
  | none =>
    let w : Wallet := { ID := s.store.nextWalletID, UserID := userID, Balance := 0 }
    let st := { s.store with
                wallets := s.store.wallets ++ [w],
                nextWalletID := s.store.nextWalletID + 1 }
    (.ok w, { store := st, cache := DeleteCache s.cache (walletCacheKey userID) })

/-- GetWalletHandler: cache-first balance read; the Bool is the `cached`
flag of the response. -/
def GetWalletHandler (s : Sys) (userID : Nat) : Except ApiError (Wallet × Bool) × Sys :=
  match GetCacheWallet s.cache (walletCacheKey userID) with
  | some w => (.ok (w, true), s)
  | none =>
    match findWalletByUser s.store userID with
    | none => (.error (.notFound "Wallet not found"), s)
    | some w =>
      (.ok (w, false),
       { s with cache := SetCacheWallet s.cache (walletCacheKey userID) w })

/-- isValidUsername: the regex `^[A-Za-z]+$`. -/
def isValidUsername (s : String) : Bool :=
  !s.data.isEmpty && s.data.all (fun c => c.isAlpha)

/-- isValidPassword: Go `len` (UTF-8 byte length) between 8 and 15. -/
def isValidPassword (s : String) : Bool :=
  8 ≤ s.utf8ByteSize && s.utf8ByteSize ≤ 15

/-- RegisterHandler: validation, then creation of the user with the
LOWERCASED username (`strings.ToLower`); a duplicate fails on the
uniqueness constraint, which compares under the column's
case-insensitive collation.  The bcrypt hash is opaque to every claim
and is modelled as the password itself. -/
def RegisterHandler (s : Sys) (req : RegisterRequest) : Except ApiError String × Sys :=
  if !isValidUsername req.Username then
    (.error (.badRequest "Username must be alphabetic only"), s)
  else if !isValidPassword req.Password then
    (.error (.badRequest "Password must be 8-15 characters"), s)
  else
    let uname := goToLower req.Username
    if (s.store.users.find? (fun u => mysqlCiEq u.Username uname)).isSome then
      (.error (.badRequest "Username already exists"), s)
    else
      (.ok "User registered successfully",
       { s with store :=
           { s.store with
             users := s.store.users ++
               [{ ID := s.store.nextUserID, Username := uname,
                  Password := req.Password, Role := "user" }],
             nextUserID := s.store.nextUserID + 1 } })

deriving instance DecidableEq for Except

/-- One engine operation of §4.1, with the request payload each handler
binds; `getBalance` is GetWalletHandler, `getHistory` is
GetTransactionHistoryHandler. -/
inductive Op where
  | createAccount (userID : Nat)
  | deposit (userID : Nat) (req : DepositRequest)
  | transfer (fromUserID : Nat) (req : TransferRequest)
  | getBalance (userID : Nat)
  | getHistory (userID : Nat) (pageQ pageSizeQ : Option String)
deriving DecidableEq, Repr

/-- Sequential execution of one operation (state effect only). -/
def runOp (s : Sys) : Op → Sys
  | .createAccount uid => (CreateWalletHandler s uid).2
  | .deposit uid req => (DepositHandler s uid req).2
  | .transfer uid req => (TransferHandler s uid req).2
  | .getBalance uid => (GetWalletHandler s uid).2
  | .getHistory uid pq psq => (GetTransactionHistoryHandler s uid pq psq).2

/-- Sequential execution of a list of operations. -/
def runOps (s : Sys) (ops : List Op) : Sys :=
  ops.foldl runOp s

/-- The balance invariant: no wallet row is negative. -/
def balancesNonneg (st : Store) : Prop :=
  ∀ w ∈ st.wallets, 0 ≤ w.Balance

/-- Well-formedness the real store's primary-key discipline provides:
wallet IDs are pairwise distinct and below the autoincrement counter. -/
def walletTableWF (st : Store) : Prop :=
  (st.wallets.map Wallet.ID).Nodup ∧ ∀ w ∈ st.wallets, w.ID < st.nextWalletID

/-- Fixture user rows (registered usernames are stored lowercased). -/
def userAlice : User := { ID := 1, Username := "alice", Password := "password1", Role := "user" }

/-- Second fixture user. -/
def userBob : User := { ID := 2, Username := "bob", Password := "password1", Role := "user" }

/-- The empty cache. -/
def emptyCache : Cache := { walletEntries := [], historyEntries := [] }

/-- Fixture: alice and bob registered, both wallets at balance 0. -/
def sysBothZero : Sys :=
  { store := { users := [userAlice, userBob],
               wallets := [{ ID := 1, UserID := 1, Balance := 0 },
                           { ID := 2, UserID := 2, Balance := 0 }],
               transactions := [],
               nextUserID := 3, nextWalletID := 3, nextTxID := 1, clock := 1000 },
    cache := emptyCache }

/-- Fixture: alice's wallet holds 100, bob's 0. -/
def sysAlice100 : Sys :=
  { store := { users := [userAlice, userBob],
               wallets := [{ ID := 1, UserID := 1, Balance := 100 },
                           { ID := 2, UserID := 2, Balance := 0 }],
               transactions := [],
               nextUserID := 3, nextWalletID := 3, nextTxID := 1, clock := 1000 },
    cache := emptyCache }

/-- A history first page of size 10 with no entries, as GetHistory would
have cached it for alice before any transaction existed. -/
def staleAlicePage : HistoryPage :=
  { transactions := [], page := 1, pageSize := 10, total := 0, totalPages := 0 }

/-- Fixture: alice owns a wallet holding 5 and no transactions exist yet;
the cache holds her (currently accurate) empty size-10 history first
page under the key GetHistory builds for page=1, size=10. -/
def sysStaleHistory : Sys :=
  { store := { users := [userAlice],
               wallets := [{ ID := 1, UserID := 1, Balance := 5 }],
               transactions := [],
               nextUserID := 2, nextWalletID := 2, nextTxID := 1, clock := 1000 },
    cache := { walletEntries := [], historyEntries := [(txHistoryCacheKey 1 1 10, staleAlicePage)] } }

/-- The request of the two concurrent `Transfer(A, B, 60)` calls. -/
def transferSixty : TransferRequest := { ToUsername := "bob", Amount := 60 }

/-- Fixture user row as registration of the request username "Carol"
creates it: stored lowercased. -/
def userCarol : User := { ID := 3, Username := "carol", Password := "password1", Role := "user" }

/-- Fixture: alice holding 100 plus bob and carol with empty wallets;
carol's row was created by registering "Carol" (stored as "carol"). -/
def sysThreeUsers : Sys :=
  { store := { users := [userAlice, userBob, userCarol],
               wallets := [{ ID := 1, UserID := 1, Balance := 100 },
                           { ID := 2, UserID := 2, Balance := 0 },
                           { ID := 3, UserID := 3, Balance := 0 }],
               transactions := [],
               nextUserID := 4, nextWalletID := 4, nextTxID := 1, clock := 1000 },
    cache := emptyCache }

/-- Transaction fixture with creation time 1000: a transfer out of wallet 1. -/
def txTieA : Transaction :=
  { ID := 1, FromWalletID := some 1, ToWalletID := some 2, Amount := 5,
    Type' := "transfer", CreatedAt := 1000 }

/-- Transaction fixture with the SAME creation time 1000: a deposit into
wallet 1 (two rows created within one millisecond share a timestamp). -/
def txTieB : Transaction :=
  { ID := 2, FromWalletID := none, ToWalletID := some 1, Amount := 7,
    Type' := "deposit", CreatedAt := 1000 }

/-- Fixture store whose transaction table holds the two time-tied rows. -/
def storeTie : Store :=
  { users := [userAlice], wallets := [{ ID := 1, UserID := 1, Balance := 12 }],
    transactions := [txTieA, txTieB],
    nextUserID := 2, nextWalletID := 2, nextTxID := 3, clock := 1001 }

/-- The effective page size is always within [1, 100]. -/
lemma one_le_effectivePageSize (q : Option String) :
    1 ≤ effectivePageSize q ∧ effectivePageSize q ≤ 100 := by
  rcases q with _ | p
  · decide
  · rcases hA : goAtoi p with _ | v
    · simp [effectivePageSize, hA]
    · simp only [effectivePageSize, hA]
      by_cases hv : 0 < v ∧ v ≤ 100
      · rw [if_pos hv]; omega
      · rw [if_neg hv]; omega

/-- The Go integer formula `(total + pageSize - 1) / pageSize` computes the
rational ceiling of total / pageSize. -/
lemma addPredDiv_eq_natCeil (t p : ℕ) (hp : 0 < p) :
    ((t + p - 1) / p : ℕ) = ⌈(t : ℚ) / (p : ℚ)⌉₊ := by
  rcases Nat.eq_zero_or_pos t with ht | ht
  · subst ht
    rw [Nat.zero_add, Nat.div_eq_of_lt (by omega : p - 1 < p)]
    simp
  · set n := (t + p - 1) / p with hn
    have hn1 : 1 ≤ n := (Nat.le_div_iff_mul_le hp).mpr (by omega)
    have hlt : t + p - 1 < (n + 1) * p :=
      (Nat.div_lt_iff_lt_mul hp).mp (by omega)
    have hmul : n * p ≤ t + p - 1 := Nat.div_mul_le_self _ _
    have h1 : t ≤ n * p := by
      rw [Nat.add_mul, Nat.one_mul] at hlt
      omega
    have h2 : (n - 1) * p < t := by
      rw [Nat.sub_mul, Nat.one_mul]
      omega
    have hpQ : (0 : ℚ) < (p : ℚ) := by exact_mod_cast hp
    symm
    rw [Nat.ceil_eq_iff (by omega : n ≠ 0)]
    constructor
    · rw [lt_div_iff₀ hpQ]
      exact_mod_cast h2
    · rw [div_le_iff₀ hpQ]
      exact_mod_cast h1

/-- An entry surviving DeleteCacheKeys was already cached and its key is
none of the deleted ones. -/
lemma mem_walletEntries_DeleteCacheKeys (keys : List String) (c : Cache) (e : String × Wallet)
    (he : e ∈ (DeleteCacheKeys c keys).walletEntries) :
    e ∈ c.walletEntries ∧ ∀ k ∈ keys, e.1 ≠ k := by
  induction keys generalizing c with
  | nil => exact ⟨he, by simp⟩
  | cons k ks ih =>
    obtain ⟨hmem, hks⟩ := ih (DeleteCache c k) he
    simp only [DeleteCache, List.mem_filter, bne_iff_ne, ne_eq] at hmem
    refine ⟨hmem.1, ?_⟩
    intro k' hk'
    rcases List.mem_cons.mp hk' with rfl | h
    · exact hmem.2
    · exact hks k' h

/-- Reading a deleted key misses. -/
lemma GetCacheWallet_DeleteCacheKeys_of_mem (c : Cache) (keys : List String) (key : String)
    (h : key ∈ keys) : GetCacheWallet (DeleteCacheKeys c keys) key = none := by
  unfold GetCacheWallet
  rw [List.find?_eq_none.mpr]
  · rfl
  · intro e he hbeq
    exact (mem_walletEntries_DeleteCacheKeys keys c e he).2 key h (beq_iff_eq.mp hbeq)

/-- A balance update commutes with lookup by user (it never touches the
`UserID` column). -/
lemma find?_userID_map_update (l : List Wallet) (uid wid : Nat) (g : ℚ → ℚ) :
    (l.map (fun w => if w.ID == wid then { w with Balance := g w.Balance } else w)).find?
        (fun w => w.UserID == uid)
      = (l.find? (fun w => w.UserID == uid)).map
          (fun w => if w.ID == wid then { w with Balance := g w.Balance } else w) := by
  rw [List.find?_map]
  have hp : ((fun w : Wallet => w.UserID == uid) ∘
        (fun w => if w.ID == wid then { w with Balance := g w.Balance } else w))
      = (fun w : Wallet => w.UserID == uid) := by
    funext w
    simp only [Function.comp_apply]
    split <;> rfl
  rw [hp]

/-- Store-level form of `find?_userID_map_update`. -/
lemma findWalletByUser_updateWalletBalance (st : Store) (uid wid : Nat) (g : ℚ → ℚ) :
    findWalletByUser (updateWalletBalance st wid g) uid
      = (findWalletByUser st uid).map
          (fun w => if w.ID == wid then { w with Balance := g w.Balance } else w) :=
  find?_userID_map_update st.wallets uid wid g

/-- Creating a transaction row leaves the wallets relation untouched. -/
lemma findWalletByUser_insertTransaction (st : Store) (uid : Nat) (fromW toW : Option Nat)
    (amount : ℚ) (ty : String) :
    findWalletByUser (insertTransaction st fromW toW amount ty) uid
      = findWalletByUser st uid := rfl

/-- Balance updates do not change the wallet primary keys. -/
lemma updateWalletBalance_map_ID (st : Store) (wid : Nat) (f : ℚ → ℚ) :
    (updateWalletBalance st wid f).wallets.map Wallet.ID = st.wallets.map Wallet.ID := by
  unfold updateWalletBalance
  rw [List.map_map]
  apply List.map_congr_left
  intro w _
  simp only [Function.comp_apply]
  split <;> rfl

/-- GetWalletHandler is a pure read of the store. -/
lemma GetWalletHandler_store (s : Sys) (uid : Nat) :
    (GetWalletHandler s uid).2.store = s.store := by
  unfold GetWalletHandler
  split
  · rfl
  · split <;> rfl

/-- GetTransactionHistoryHandler is a pure read of the store. -/
lemma GetTransactionHistoryHandler_store (s : Sys) (uid : Nat) (pq psq : Option String) :
    (GetTransactionHistoryHandler s uid pq psq).2.store = s.store := by
  unfold GetTransactionHistoryHandler
  split
  · rfl
  · dsimp only
    split <;> rfl

/-- Inversion of a passed transfer pre-check: all five guards held on the
state the check read. -/
lemma transferCheck_ok_facts (st : Store) (fromUID : Nat) (req : TransferRequest)
    (toUser : User) (fromW toW : Wallet)
    (h : transferCheck st fromUID req = .ok (toUser, fromW, toW)) :
    0 < req.Amount ∧
      findUserByUsername st req.ToUsername = some toUser ∧
      toUser.ID ≠ fromUID ∧
      findWalletByUser st fromUID = some fromW ∧
      findWalletByUser st toUser.ID = some toW ∧
      req.Amount ≤ fromW.Balance := by
  unfold transferCheck at h
  split at h
  · exact absurd h (by simp)
  next hamt =>
    split at h
    · exact absurd h (by simp)
    next toUser' hfind =>
      split at h
      · exact absurd h (by simp)
      next hneq =>
        split at h
        · exact absurd h (by simp)
        next fromW' hfw =>
          split at h
          · exact absurd h (by simp)
          next toW' htw =>
            split at h
            · exact absurd h (by simp)
            next hbal =>
              simp only [Except.ok.injEq, Prod.mk.injEq] at h
              obtain ⟨h1, h2, h3⟩ := h
              subst h1
              subst h2
              subst h3
              exact ⟨not_le.mp hamt, hfind, fun heq => hneq (beq_iff_eq.mpr heq),
                hfw, htw, not_lt.mp hbal⟩

/-- One sequential engine operation preserves key well-formedness and the
non-negative balance invariant. -/
lemma runOp_preserves_wf_nonneg (s : Sys) (op : Op)
    (h : walletTableWF s.store ∧ balancesNonneg s.store) :
    walletTableWF (runOp s op).store ∧ balancesNonneg (runOp s op).store := by
  obtain ⟨⟨hnd, hbound⟩, hnn⟩ := h
  cases op with
  | getBalance uid =>
    rw [show (runOp s (Op.getBalance uid)).store = s.store from GetWalletHandler_store s uid]
    exact ⟨⟨hnd, hbound⟩, hnn⟩
  | getHistory uid pq psq =>
    rw [show (runOp s (Op.getHistory uid pq psq)).store = s.store from
      GetTransactionHistoryHandler_store s uid pq psq]
    exact ⟨⟨hnd, hbound⟩, hnn⟩
  | createAccount uid =>
    simp only [runOp, CreateWalletHandler]
    split
    · exact ⟨⟨hnd, hbound⟩, hnn⟩
    · refine ⟨⟨?_, ?_⟩, ?_⟩
      · rw [List.map_append]
        refine List.nodup_append.mpr ⟨hnd, List.nodup_singleton _, ?_⟩
        intro x hx hx2
        simp only [List.map_cons, List.map_nil, List.mem_singleton] at hx2
        obtain ⟨w, hw, hid⟩ := List.mem_map.mp hx
        have := hbound w hw
        omega
      · intro w hw
        rcases List.mem_append.mp hw with hmem | hmem
        · exact Nat.lt_succ_of_lt (hbound w hmem)
        · simp only [List.mem_singleton] at hmem
          subst hmem
          exact Nat.lt_succ_self _
      · intro w hw
        rcases List.mem_append.mp hw with hmem | hmem
        · exact hnn w hmem
        · simp only [List.mem_singleton] at hmem
          subst hmem
          exact le_refl 0
  | deposit uid req =>
    simp only [runOp, DepositHandler]
    split
    · exact ⟨⟨hnd, hbound⟩, hnn⟩
    next hamt =>
      split
      · exact ⟨⟨hnd, hbound⟩, hnn⟩
      next wlt hfw =>
        refine ⟨⟨?_, ?_⟩, ?_⟩
        · show ((insertTransaction (updateWalletBalance s.store wlt.ID _) _ _ _ _).wallets.map
            Wallet.ID).Nodup
          rw [show (insertTransaction (updateWalletBalance s.store wlt.ID
              (fun b => b + req.Amount)) none (some wlt.ID) req.Amount "deposit").wallets
              = (updateWalletBalance s.store wlt.ID (fun b => b + req.Amount)).wallets from rfl,
            updateWalletBalance_map_ID]
          exact hnd
        · intro w hw
          obtain ⟨w0, hw0, heq⟩ := List.mem_map.mp hw
          have hb := hbound w0 hw0
          subst heq
          split <;> exact hb
        · intro w hw
          obtain ⟨w0, hw0, heq⟩ := List.mem_map.mp hw
          have hb := hnn w0 hw0
          subst heq
          split
          · exact add_nonneg hb (le_of_lt (not_le.mp hamt))
          · exact hb
  | transfer uid req =>
    simp only [runOp, TransferHandler]
    split
    · exact ⟨⟨hnd, hbound⟩, hnn⟩
    next toUser fromW toW hchk =>
      obtain ⟨hamt, huser, hself, hfrom, hto, hsuff⟩ :=
        transferCheck_ok_facts s.store uid req toUser fromW toW hchk
      have hfrom' : s.store.wallets.find? (fun w => w.UserID == uid) = some fromW := hfrom
      have hto' : s.store.wallets.find? (fun w => w.UserID == toUser.ID) = some toW := hto
      have hmemF : fromW ∈ s.store.wallets := List.mem_of_find?_eq_some hfrom'
      have hmemT : toW ∈ s.store.wallets := List.mem_of_find?_eq_some hto'
      have hpF := List.find?_some hfrom'
      have hpT := List.find?_some hto'
      simp only [beq_iff_eq] at hpF hpT
      refine ⟨⟨?_, ?_⟩, ?_⟩
      · show ((transferTxBody s.store fromW toW req.Amount).wallets.map Wallet.ID).Nodup
        rw [show (transferTxBody s.store fromW toW req.Amount).wallets
            = (updateWalletBalance (updateWalletBalance s.store fromW.ID
                (fun b => b - req.Amount)) toW.ID (fun b => b + req.Amount)).wallets from rfl,
          updateWalletBalance_map_ID, updateWalletBalance_map_ID]
        exact hnd
      · intro w hw
        obtain ⟨w1, hw1, heq1⟩ := List.mem_map.mp hw
        obtain ⟨w0, hw0, heq0⟩ := List.mem_map.mp hw1
        have hb := hbound w0 hw0
        subst heq1
        subst heq0
        split <;> split <;> exact hb
      · intro w hw
        obtain ⟨w1, hw1, heq1⟩ := List.mem_map.mp hw
        obtain ⟨w0, hw0, heq0⟩ := List.mem_map.mp hw1
        have hb := hnn w0 hw0
        subst heq1
        subst heq0
        by_cases hid : (w0.ID == fromW.ID) = true
        · have hw0eq : w0 = fromW :=
            List.inj_on_of_nodup_map hnd hw0 hmemF (beq_iff_eq.mp hid)
          rw [if_pos hid]
          have hneid : w0.ID ≠ toW.ID := by
            intro heq
            have h2 : w0 = toW := List.inj_on_of_nodup_map hnd hw0 hmemT heq
            apply hself
            rw [← hpT, ← h2, hw0eq, hpF]
          rw [if_neg (by simp [hneid])]
          rw [hw0eq]
          exact sub_nonneg.mpr hsuff
        · rw [if_neg hid]
          split
          · exact add_nonneg hb (le_of_lt hamt)
          · exact hb

/-- Folding `runOp_preserves_wf_nonneg` over an operation sequence. -/
lemma runOps_preserves_wf_nonneg (ops : List Op) (s : Sys)
    (h : walletTableWF s.store ∧ balancesNonneg s.store) :
    walletTableWF (runOps s ops).store ∧ balancesNonneg (runOps s ops).store := by
  induction ops generalizing s with
  | nil => exact h
  | cons op ops ih => exact ih (runOp s op) (runOp_preserves_wf_nonneg s op h)

/-- Claim C1 (code evaluated at the failing schedule): with A holding 100
and B holding 0, run two `Transfer(A, B, 60)` calls interleaved as
check-1, check-2, commit-1, commit-2.  The pre-check is a pure read, so
both calls pass it against balance 100 on the same state; the body of
`db.Transaction` debits unconditionally (`balance = balance - 60` with
no `balance >= amount` predicate), so both atomic units commit, both
calls answer "Transfer successful", two `transfer` rows are created, and
A's final balance is -20 — not the claimed one-success/one-failure
outcome with A at 40. -/
theorem concurrent_transfers_both_commit :
    transferCheck sysAlice100.store 1 transferSixty
        = .ok (userBob, { ID := 1, UserID := 1, Balance := 100 },
               { ID := 2, UserID := 2, Balance := 0 }) ∧
      (let st2 := transferTxBody
          (transferTxBody sysAlice100.store { ID := 1, UserID := 1, Balance := 100 }
            { ID := 2, UserID := 2, Balance := 0 } 60)
          { ID := 1, UserID := 1, Balance := 100 } { ID := 2, UserID := 2, Balance := 0 } 60
       (findWalletByUser st2 1).map Wallet.Balance = some (-20) ∧
         (findWalletByUser st2 2).map Wallet.Balance = some 120 ∧
         st2.transactions.length = 2) := by
  refine ⟨by decide, ?_⟩
  simp [transferTxBody, updateWalletBalance, insertTransaction, findWalletByUser,
    sysAlice100, userAlice, userBob]
  norm_num

/-- Claim C2, counterexample: alice's history page 1 at page size 10 is
cached (accurately: empty).  A successful `Deposit(alice, 100)` deletes
only her balance key and the five size-20 history pages, so the size-10
key survives, and the next `GetHistory(page=1, page_size=10)` is served
from the cache with zero transactions and `cached = true`, although the
deposit has since created a transaction row for her wallet — a hit older
than the last successful mutation of the data behind that key. -/
theorem deposit_leaves_stale_history_page :
    (DepositHandler sysStaleHistory 1 { Amount := 100 }).1 = .ok "Deposit successful" ∧
      (let s' := (DepositHandler sysStaleHistory 1 { Amount := 100 }).2
       GetCacheHistory s'.cache (txHistoryCacheKey 1 1 10) = some staleAlicePage ∧
         (GetTransactionHistoryHandler s' 1 none (some "10")).1
           = .ok { transactions := [], page := 1, pageSize := 10, total := 0,
                   totalPages := 0, cached := true } ∧
         s'.store.transactions
           = [{ ID := 1, FromWalletID := none, ToWalletID := some 1, Amount := 100,
                Type' := "deposit", CreatedAt := 1000 }]) := by
  have hps : effectivePageSize (some "10") = 10 := by decide
  have hpg : effectivePage (none : Option String) = 1 := by decide
  have hk : txHistoryCacheKey 1 1 10 = "txhistory:user:1:page:1:size:10" := by decide
  have hd : depositInvalidationKeys 1 =
      ["wallet:user:1", "txhistory:user:1:page:1:size:20", "txhistory:user:1:page:2:size:20",
       "txhistory:user:1:page:3:size:20", "txhistory:user:1:page:4:size:20",
       "txhistory:user:1:page:5:size:20"] := by decide
  refine ⟨?_, ?_, ?_, ?_⟩ <;>
    · simp [DepositHandler, GetTransactionHistoryHandler, GetCacheHistory, findWalletByUser,
        updateWalletBalance, insertTransaction, DeleteCacheKeys, DeleteCache,
        hps, hpg, hk, hd, sysStaleHistory, staleAlicePage, userAlice]
      norm_num

/-- Claim C2, amended: every successful Deposit and Transfer deletes the
balance cache key of each affected account, so the next GetBalance on
that account misses the cache (whatever it held) and returns the
post-mutation stored balance tagged fresh; history pages other than the
five size-20 ones are NOT covered (see the counterexample). -/
theorem mutation_then_getBalance_fresh :
    (∀ (s : Sys) (uid : Nat) (dreq : DepositRequest) (w : Wallet),
      findWalletByUser s.store uid = some w → 0 < dreq.Amount →
        (DepositHandler s uid dreq).1 = .ok "Deposit successful" ∧
          (GetWalletHandler (DepositHandler s uid dreq).2 uid).1
            = .ok ({ w with Balance := w.Balance + dreq.Amount }, false)) ∧
    (∀ (s : Sys) (fromUserID : Nat) (req : TransferRequest) (toUser : User) (fromW toW : Wallet),
      (s.store.wallets.map Wallet.ID).Nodup →
      findUserByUsername s.store req.ToUsername = some toUser →
      toUser.ID ≠ fromUserID →
      findWalletByUser s.store fromUserID = some fromW →
      findWalletByUser s.store toUser.ID = some toW →
      0 < req.Amount → req.Amount ≤ fromW.Balance →
        (TransferHandler s fromUserID req).1 = .ok "Transfer successful" ∧
          (GetWalletHandler (TransferHandler s fromUserID req).2 fromUserID).1
            = .ok ({ fromW with Balance := fromW.Balance - req.Amount }, false) ∧
          (GetWalletHandler (TransferHandler s fromUserID req).2 toUser.ID).1
            = .ok ({ toW with Balance := toW.Balance + req.Amount }, false)) := by
  constructor
  · intro s uid dreq w hw hamt
    have hdep : DepositHandler s uid dreq
        = (.ok "Deposit successful",
           { store := insertTransaction
               (updateWalletBalance s.store w.ID (fun b => b + dreq.Amount))
               none (some w.ID) dreq.Amount "deposit",
             cache := DeleteCacheKeys s.cache (depositInvalidationKeys uid) }) := by
      simp [DepositHandler, hamt.not_le, hw]
    refine ⟨by rw [hdep], ?_⟩
    rw [hdep]
    have hcache : GetCacheWallet (DeleteCacheKeys s.cache (depositInvalidationKeys uid))
        (walletCacheKey uid) = none :=
      GetCacheWallet_DeleteCacheKeys_of_mem _ _ _ (List.mem_cons_self _ _)
    have hfind : findWalletByUser
        (insertTransaction (updateWalletBalance s.store w.ID (fun b => b + dreq.Amount))
          none (some w.ID) dreq.Amount "deposit") uid
        = some { w with Balance := w.Balance + dreq.Amount } := by
      rw [findWalletByUser_insertTransaction, findWalletByUser_updateWalletBalance, hw,
        Option.map_some']
      rw [if_pos (beq_self_eq_true w.ID)]
    simp only [GetWalletHandler, hcache, hfind]
  · intro s fromUserID req toUser fromW toW hnd huser hself hfrom hto hamt hsuff
    have hfrom' : s.store.wallets.find? (fun w => w.UserID == fromUserID) = some fromW := hfrom
    have hto' : s.store.wallets.find? (fun w => w.UserID == toUser.ID) = some toW := hto
    have hmemF : fromW ∈ s.store.wallets := List.mem_of_find?_eq_some hfrom'
    have hmemT : toW ∈ s.store.wallets := List.mem_of_find?_eq_some hto'
    have hpF := List.find?_some hfrom'
    have hpT := List.find?_some hto'
    simp only [beq_iff_eq] at hpF hpT
    have hne : fromW.ID ≠ toW.ID := by
      intro heq
      have heqw : fromW = toW := List.inj_on_of_nodup_map hnd hmemF hmemT heq
      apply hself
      rw [← hpT, ← heqw, hpF]
    have hchk : transferCheck s.store fromUserID req = .ok (toUser, fromW, toW) := by
      simp [transferCheck, hamt.not_le, huser, hself, hfrom, hto, not_lt.mpr hsuff]
    have htr : TransferHandler s fromUserID req
        = (.ok "Transfer successful",
           { store := transferTxBody s.store fromW toW req.Amount,
             cache := DeleteCacheKeys s.cache
               (transferInvalidationKeys fromUserID toUser.ID) }) := by
      unfold TransferHandler
      rw [hchk]
    have hcacheF : GetCacheWallet
        (DeleteCacheKeys s.cache (transferInvalidationKeys fromUserID toUser.ID))
        (walletCacheKey fromUserID) = none :=
      GetCacheWallet_DeleteCacheKeys_of_mem _ _ _ (List.mem_cons_self _ _)
    have hcacheT : GetCacheWallet
        (DeleteCacheKeys s.cache (transferInvalidationKeys fromUserID toUser.ID))
        (walletCacheKey toUser.ID) = none :=
      GetCacheWallet_DeleteCacheKeys_of_mem _ _ _
        (List.mem_cons_of_mem _ (List.mem_cons_self _ _))
    have hfindF : findWalletByUser (transferTxBody s.store fromW toW req.Amount) fromUserID
        = some { fromW with Balance := fromW.Balance - req.Amount } := by
      unfold transferTxBody
      rw [findWalletByUser_insertTransaction, findWalletByUser_updateWalletBalance,
        findWalletByUser_updateWalletBalance, hfrom, Option.map_some', Option.map_some']
      simp [hne]
    have hfindT : findWalletByUser (transferTxBody s.store fromW toW req.Amount) toUser.ID
        = some { toW with Balance := toW.Balance + req.Amount } := by
      unfold transferTxBody
      rw [findWalletByUser_insertTransaction, findWalletByUser_updateWalletBalance,
        findWalletByUser_updateWalletBalance, hto, Option.map_some', Option.map_some']
      simp [hne.symm]
    refine ⟨by rw [htr], ?_, ?_⟩
    · rw [htr]
      simp only [GetWalletHandler, hcacheF, hfindF]
    · rw [htr]
      simp only [GetWalletHandler, hcacheT, hfindT]

/-- Witness for C2 amended at concrete inputs (deposit on a zero balance,
then transfer of 60 out of a balance of 100). -/
theorem mutation_then_getBalance_fresh_witness :
    ((DepositHandler sysBothZero 1 { Amount := 100 }).1 = .ok "Deposit successful" ∧
      (GetWalletHandler (DepositHandler sysBothZero 1 { Amount := 100 }).2 1).1
        = .ok ({ ID := 1, UserID := 1, Balance := 0 + 100 }, false)) ∧
    ((TransferHandler sysAlice100 1 { ToUsername := "bob", Amount := 60 }).1
        = .ok "Transfer successful" ∧
      (GetWalletHandler (TransferHandler sysAlice100 1
          { ToUsername := "bob", Amount := 60 }).2 1).1
        = .ok ({ ID := 1, UserID := 1, Balance := 100 - 60 }, false) ∧
      (GetWalletHandler (TransferHandler sysAlice100 1
          { ToUsername := "bob", Amount := 60 }).2 2).1
        = .ok ({ ID := 2, UserID := 2, Balance := 0 + 60 }, false)) :=
  ⟨mutation_then_getBalance_fresh.1 sysBothZero 1 { Amount := 100 }
      { ID := 1, UserID := 1, Balance := 0 } (by decide) (by decide),
   mutation_then_getBalance_fresh.2 sysAlice100 1 { ToUsername := "bob", Amount := 60 }
      userBob { ID := 1, UserID := 1, Balance := 100 } { ID := 2, UserID := 2, Balance := 0 }
      (by decide) (by decide) (by decide) (by decide) (by decide) (by decide) (by decide)⟩

/-- Claim C3: when the requested amount strictly exceeds the sender's
current balance (and the request is otherwise well-formed: positive
amount, resolvable non-self destination, both wallets present),
TransferHandler answers 400 "Insufficient funds" and returns the system
state unchanged — no balance moves and no transaction row is created. -/
theorem transfer_insufficient_funds_unchanged
    (s : Sys) (fromUserID : Nat) (req : TransferRequest) (toUser : User) (fromW toW : Wallet)
    (hamt : 0 < req.Amount)
    (huser : findUserByUsername s.store req.ToUsername = some toUser)
    (hself : toUser.ID ≠ fromUserID)
    (hfrom : findWalletByUser s.store fromUserID = some fromW)
    (hto : findWalletByUser s.store toUser.ID = some toW)
    (hins : fromW.Balance < req.Amount) :
    TransferHandler s fromUserID req = (.error (.badRequest "Insufficient funds"), s) := by
  have hchk : transferCheck s.store fromUserID req
      = .error (.badRequest "Insufficient funds") := by
    simp [transferCheck, hamt.not_le, huser, hself, hfrom, hto, hins]
  unfold TransferHandler
  rw [hchk]

/-- Witness for C3: transferring 160 out of a balance of 100. -/
theorem transfer_insufficient_funds_witness :
    TransferHandler sysAlice100 1 { ToUsername := "bob", Amount := 160 }
      = (.error (.badRequest "Insufficient funds"), sysAlice100) :=
  transfer_insufficient_funds_unchanged sysAlice100 1 { ToUsername := "bob", Amount := 160 }
    userBob { ID := 1, UserID := 1, Balance := 100 } { ID := 2, UserID := 2, Balance := 0 }
    (by decide) (by decide) (by decide) (by decide) (by decide) (by decide)

/-- Claim C4, counterexample: the same `Deposit(1, 100)` request issued
against balance 0 and against balance 100 produces byte-identical
success responses (the constant message "Deposit successful"), while the
resulting new balances differ (100 vs 200) — so the response does not
carry the account's new balance. -/
theorem deposit_response_carries_no_balance :
    (DepositHandler sysBothZero 1 { Amount := 100 }).1
        = (DepositHandler sysAlice100 1 { Amount := 100 }).1 ∧
      (findWalletByUser (DepositHandler sysBothZero 1 { Amount := 100 }).2.store 1).map
          Wallet.Balance = some 100 ∧
      (findWalletByUser (DepositHandler sysAlice100 1 { Amount := 100 }).2.store 1).map
          Wallet.Balance = some 200 := by
  refine ⟨by rfl, ?_, ?_⟩ <;>
    · simp [DepositHandler, findWalletByUser, updateWalletBalance, insertTransaction,
        sysBothZero, sysAlice100, userAlice, userBob]
      norm_num

/-- Claim C4, amended: every successful Deposit returns the fixed success
message "Deposit successful" (no balance field). -/
theorem deposit_success_message
    (s : Sys) (uid : Nat) (dreq : DepositRequest) (w : Wallet)
    (hw : findWalletByUser s.store uid = some w) (hamt : 0 < dreq.Amount) :
    (DepositHandler s uid dreq).1 = .ok "Deposit successful" := by
  simp [DepositHandler, hamt.not_le, hw]

/-- Witness for C4 amended: a deposit of 100 into alice's empty wallet. -/
theorem deposit_success_message_witness :
    (DepositHandler sysBothZero 1 { Amount := 100 }).1 = .ok "Deposit successful" :=
  deposit_success_message sysBothZero 1 { Amount := 100 }
    { ID := 1, UserID := 1, Balance := 0 } (by decide) (by decide)

/-- Claim C5: starting from a store satisfying the primary-key discipline
(pairwise distinct wallet IDs below the autoincrement counter) in which
every balance is non-negative, any sequential run of engine operations
keeps every balance non-negative: deposits only add a positive amount,
and transfers debit only after the pre-check established sufficiency on
the very state the debit is applied to. -/
theorem engine_preserves_balancesNonneg (s : Sys) (ops : List Op)
    (hwf : walletTableWF s.store) (hnn : balancesNonneg s.store) :
    balancesNonneg (runOps s ops).store :=
  (runOps_preserves_wf_nonneg ops s ⟨hwf, hnn⟩).2

/-- Witness for C5 on a concrete five-operation sequence. -/
theorem engine_preserves_balancesNonneg_witness :
    balancesNonneg (runOps sysBothZero
      [Op.deposit 1 { Amount := 100 }, Op.transfer 1 { ToUsername := "bob", Amount := 40 },
       Op.getBalance 1, Op.createAccount 7,
       Op.getHistory 2 none (some "10")]).store :=
  engine_preserves_balancesNonneg sysBothZero _
    (by unfold walletTableWF; exact ⟨by decide, by decide⟩)
    (by unfold balancesNonneg; decide)

/-- Claim C6: with alice and bob both at 0, `Deposit(alice, 100)` then
`GetBalance(alice)` returns 100 (fresh); `Transfer(alice, bob, 40)`
succeeds and the two subsequent GetBalance calls return 60 for alice and
40 for bob — the cache populated by the intermediate read having been
invalidated by the transfer. -/
theorem roundTrip_deposit_transfer_getBalance :
    (let s1 := (DepositHandler sysBothZero 1 { Amount := 100 }).2
     let r1 := (GetWalletHandler s1 1).1
     let s2 := (GetWalletHandler s1 1).2
     let s3 := (TransferHandler s2 1 { ToUsername := "bob", Amount := 40 }).2
     let r3 := (TransferHandler s2 1 { ToUsername := "bob", Amount := 40 }).1
     r1 = .ok ({ ID := 1, UserID := 1, Balance := 100 }, false) ∧
       r3 = .ok "Transfer successful" ∧
       (GetWalletHandler s3 1).1 = .ok ({ ID := 1, UserID := 1, Balance := 60 }, false) ∧
       (GetWalletHandler s3 2).1 = .ok ({ ID := 2, UserID := 2, Balance := 40 }, false)) := by
  have hemp : ∀ keys : List String,
      DeleteCacheKeys { walletEntries := [], historyEntries := [] } keys
        = { walletEntries := [], historyEntries := [] } := by
    intro keys
    induction keys with
    | nil => rfl
    | cons k ks ih => simpa [DeleteCacheKeys, DeleteCache] using ih
  have hd : depositInvalidationKeys 1 =
      ["wallet:user:1", "txhistory:user:1:page:1:size:20", "txhistory:user:1:page:2:size:20",
       "txhistory:user:1:page:3:size:20", "txhistory:user:1:page:4:size:20",
       "txhistory:user:1:page:5:size:20"] := by decide
  have ht : transferInvalidationKeys 1 2 =
      ["wallet:user:1", "wallet:user:2",
       "txhistory:user:1:page:1:size:20", "txhistory:user:1:page:2:size:20",
       "txhistory:user:1:page:3:size:20", "txhistory:user:1:page:4:size:20",
       "txhistory:user:1:page:5:size:20",
       "txhistory:user:2:page:1:size:20", "txhistory:user:2:page:2:size:20",
       "txhistory:user:2:page:3:size:20", "txhistory:user:2:page:4:size:20",
       "txhistory:user:2:page:5:size:20"] := by decide
  have hc1 : mysqlCiEq "alice" "bob" = false := by decide
  have hc2 : mysqlCiEq "bob" "bob" = true := by decide
  simp [DepositHandler, GetWalletHandler, TransferHandler, transferCheck, transferTxBody,
    findWalletByUser, findUserByUsername, GetCacheWallet, SetCacheWallet, updateWalletBalance,
    insertTransaction, hd, ht, hc1, hc2, DeleteCacheKeys, DeleteCache, hemp,
    walletCacheKey, sysBothZero, emptyCache, userAlice, userBob, List.find?]
  norm_num

/-- Claim C7, counterexample: a request with `page_size=150` is served with
an effective page size of 20 (the default), not 100 — out-of-range
values are discarded, not clamped to the nearer bound. -/
theorem pageSize150_not_clamped :
    effectivePageSize (some "150") = 20 ∧ effectivePageSize (some "150") ≠ 100 := by
  constructor <;> decide

/-- Claim C7, amended: the effective page size always lies in [1, 100]; an
absent parameter defaults to 20; a value outside (0, 100] (such as 150
or 0) or an unparsable one falls back to the default 20 rather than
being clamped to the boundary, and an in-range value is used as is. -/
theorem effectivePageSize_bounds :
    (∀ q : Option String, 1 ≤ effectivePageSize q ∧ effectivePageSize q ≤ 100) ∧
      effectivePageSize none = 20 ∧ effectivePageSize (some "150") = 20 ∧
      effectivePageSize (some "0") = 20 ∧ effectivePageSize (some "7") = 7 :=
  ⟨one_le_effectivePageSize, by decide, by decide, by decide, by decide⟩

/-- Claim C8, counterexample: the history query orders by `created_at
desc` only.  For a store holding two entries with equal creation times
and distinct identifiers, both relative orders are admissible results of
that ordering contract, so the entries are not totally ordered by the
query and the tie is not broken by entry identifier — two calls may page
them differently. -/
theorem history_order_ties_undetermined :
    historyQueryAdmissible storeTie 1 [txTieA, txTieB] ∧
      historyQueryAdmissible storeTie 1 [txTieB, txTieA] ∧
      txTieA.CreatedAt = txTieB.CreatedAt ∧ txTieA.ID ≠ txTieB.ID ∧
      [txTieA, txTieB] ≠ [txTieB, txTieA] := by
  refine ⟨⟨?_, ?_⟩, ⟨?_, ?_⟩, by decide, by decide, by decide⟩
  · decide
  · decide
  · decide
  · decide

/-- Claim C8, amended: a freshly computed history page is sorted by
creation time descending, and the full sorted row list is an admissible
result of the query contract; no identifier tie-break is requested, so
the order among equal-creation-time entries is left to the store. -/
theorem getHistory_rows_sorted
    (s : Sys) (userID : Nat) (pageQ pageSizeQ : Option String) (w : Wallet)
    (hw : findWalletByUser s.store userID = some w)
    (hmiss : GetCacheHistory s.cache
        (txHistoryCacheKey userID (effectivePage pageQ) (effectivePageSize pageSizeQ)) = none) :
    ∃ r : HistoryResponse,
      (GetTransactionHistoryHandler s userID pageQ pageSizeQ).1 = .ok r ∧
        r.transactions.Sorted createdAtDesc ∧
        historyQueryAdmissible s.store w.ID
          (List.insertionSort createdAtDesc
            (s.store.transactions.filter (txMatchesWallet w.ID))) := by
  simp only [GetTransactionHistoryHandler, hw, hmiss]
  refine ⟨_, rfl, ?_, ?_, ?_⟩
  · exact List.Pairwise.sublist
      ((List.take_sublist _ _).trans (List.drop_sublist _ _))
      (List.sorted_insertionSort _ _)
  · exact (List.perm_insertionSort _ _).symm
  · exact List.sorted_insertionSort _ _

/-- Witness for C8 amended: alice's history page on the tie-free fixture. -/
theorem getHistory_rows_sorted_witness :
    ∃ r : HistoryResponse,
      (GetTransactionHistoryHandler sysAlice100 1 (some "1") none).1 = .ok r ∧
        r.transactions.Sorted createdAtDesc ∧
        historyQueryAdmissible sysAlice100.store 1
          (List.insertionSort createdAtDesc
            (sysAlice100.store.transactions.filter (txMatchesWallet 1))) :=
  getHistory_rows_sorted sysAlice100 1 (some "1") none
    { ID := 1, UserID := 1, Balance := 100 } (by decide) (by decide)

/-- Claim C9, counterexample: starting from alice's wallet with an empty
transaction table and an empty cache, `GetHistory(page=1, page_size=10)`
caches its (then accurate) empty response; a `Deposit(alice, 100)` then
creates a transaction row but deletes only the size-20 history keys; the
next identical GetHistory call is served from the cache with
`total_pages = 0` and `total = 0`, although the number of Transaction
Entries in which alice is source or destination is now 1 and
ceiling(1 / 10) = 1 ≠ 0 — so on this (reachable) call `total_pages`
does not equal the ceiling of the true count over the page size. -/
theorem getHistory_hit_totalPages_stale :
    (let s0 : Sys := { store := sysStaleHistory.store, cache := emptyCache }
     let s1 := (GetTransactionHistoryHandler s0 1 none (some "10")).2
     let s2 := (DepositHandler s1 1 { Amount := 100 }).2
     (GetTransactionHistoryHandler s2 1 none (some "10")).1
         = .ok { transactions := [], page := 1, pageSize := 10, total := 0,
                 totalPages := 0, cached := true } ∧
       (s2.store.transactions.filter (txMatchesWallet 1)).length = 1 ∧
       (0 : Nat) ≠
         ⌈(((s2.store.transactions.filter (txMatchesWallet 1)).length : ℚ)) / ((10 : ℚ))⌉₊) := by
  have hps : effectivePageSize (some "10") = 10 := by decide
  have hpg : effectivePage (none : Option String) = 1 := by decide
  have hk : txHistoryCacheKey 1 1 10 = "txhistory:user:1:page:1:size:10" := by decide
  have hd : depositInvalidationKeys 1 =
      ["wallet:user:1", "txhistory:user:1:page:1:size:20", "txhistory:user:1:page:2:size:20",
       "txhistory:user:1:page:3:size:20", "txhistory:user:1:page:4:size:20",
       "txhistory:user:1:page:5:size:20"] := by decide
  have hfil : List.filter (txMatchesWallet 1)
      [{ ID := 1, FromWalletID := none, ToWalletID := some 1, Amount := 100,
         Type' := "deposit", CreatedAt := 1000 }]
      = [{ ID := 1, FromWalletID := none, ToWalletID := some 1, Amount := 100,
           Type' := "deposit", CreatedAt := 1000 }] := by decide
  have hceil : ⌈((1 : ℚ)) / ((10 : ℚ))⌉₊ = 1 := by
    rw [show ((1 : ℚ)) = ((1 : ℕ) : ℚ) from by norm_num,
      show ((10 : ℚ)) = ((10 : ℕ) : ℚ) from by norm_num,
      ← addPredDiv_eq_natCeil 1 10 (by norm_num)]
  refine ⟨?_, ?_, ?_⟩
  · simp [GetTransactionHistoryHandler, DepositHandler, GetCacheHistory, SetCacheHistory,
      findWalletByUser, updateWalletBalance, insertTransaction, DeleteCacheKeys, DeleteCache,
      hps, hpg, hk, hd, sysStaleHistory, emptyCache, userAlice]
    norm_num
  · simp [GetTransactionHistoryHandler, DepositHandler, GetCacheHistory, SetCacheHistory,
      findWalletByUser, updateWalletBalance, insertTransaction, DeleteCacheKeys, DeleteCache,
      hps, hpg, hk, hd, sysStaleHistory, emptyCache, userAlice]
    norm_num
    rw [hfil]
    simp
  · simp [GetTransactionHistoryHandler, DepositHandler, GetCacheHistory, SetCacheHistory,
      findWalletByUser, updateWalletBalance, insertTransaction, DeleteCacheKeys, DeleteCache,
      hps, hpg, hk, hd, sysStaleHistory, emptyCache, userAlice]
    norm_num
    rw [hfil]
    simp only [List.length_singleton, Nat.cast_one]
    rw [hceil]
    omega

/-- Claim C9, amended: every freshly computed (cache-miss) GetHistory
response lists the entries in which the account's wallet is source or
destination, sorted by creation time descending, with `total` counting
exactly those entries and `total_pages` equal to the ceiling of
total / pageSize; a cache-hit call instead re-serves a previously
computed response, which a later mutation can leave stale (see the
counterexample and C2's bounded invalidation). -/
theorem getHistory_desc_and_totalPages
    (s : Sys) (userID : Nat) (pageQ pageSizeQ : Option String) (w : Wallet)
    (hw : findWalletByUser s.store userID = some w)
    (hmiss : GetCacheHistory s.cache
        (txHistoryCacheKey userID (effectivePage pageQ) (effectivePageSize pageSizeQ)) = none) :
    ∃ r : HistoryResponse,
      (GetTransactionHistoryHandler s userID pageQ pageSizeQ).1 = .ok r ∧
        r.transactions.Sorted createdAtDesc ∧
        r.total = (s.store.transactions.filter (txMatchesWallet w.ID)).length ∧
        r.pageSize = effectivePageSize pageSizeQ ∧
        r.totalPages = ⌈(r.total : ℚ) / (r.pageSize : ℚ)⌉₊ := by
  simp only [GetTransactionHistoryHandler, hw, hmiss]
  refine ⟨_, rfl, ?_, rfl, rfl, ?_⟩
  · exact List.Pairwise.sublist
      ((List.take_sublist _ _).trans (List.drop_sublist _ _))
      (List.sorted_insertionSort _ _)
  · exact addPredDiv_eq_natCeil _ _ (one_le_effectivePageSize pageSizeQ).1

/-- Witness for C9 with page size 10 on an account that has a wallet. -/
theorem getHistory_desc_and_totalPages_witness :
    ∃ r : HistoryResponse,
      (GetTransactionHistoryHandler sysBothZero 1 none (some "10")).1 = .ok r ∧
        r.transactions.Sorted createdAtDesc ∧
        r.total = (sysBothZero.store.transactions.filter (txMatchesWallet 1)).length ∧
        r.pageSize = effectivePageSize (some "10") ∧
        r.totalPages = ⌈(r.total : ℚ) / (r.pageSize : ℚ)⌉₊ :=
  getHistory_desc_and_totalPages sysBothZero 1 none (some "10")
    { ID := 1, UserID := 1, Balance := 0 } (by decide) (by decide)

/-- `Char.toLower` is idempotent: it only moves the basic latin capitals
into the lowercase range, which it then leaves alone. -/
lemma Char_toLower_toLower (c : Char) : c.toLower.toLower = c.toLower := by
  have hdef : ∀ d : Char, Char.toLower d
      = if d.toNat ≥ 65 ∧ d.toNat ≤ 90 then Char.ofNat (d.toNat + 32) else d := fun _ => rfl
  by_cases h : c.toNat ≥ 65 ∧ c.toNat ≤ 90
  · rw [hdef c, if_pos h]
    obtain ⟨h1, h2⟩ := h
    revert h1 h2
    generalize c.toNat = n
    intro h1 h2
    interval_cases n <;> decide
  · rw [hdef c, if_neg h, hdef c, if_neg h]

/-- Lowercasing a string is idempotent. -/
lemma goToLower_idem (s : String) : goToLower (goToLower s) = goToLower s := by
  show String.mk ((s.data.map Char.toLower).map Char.toLower)
      = String.mk (s.data.map Char.toLower)
  rw [List.map_map]
  congr 1
  apply List.map_congr_left
  intro c _
  simp only [Function.comp_apply]
  exact Char_toLower_toLower c

/-- Under the case-insensitive collation, the lowercased stored username
matches the original request string. -/
lemma mysqlCiEq_goToLower_self (x : String) : mysqlCiEq (goToLower x) x = true := by
  unfold mysqlCiEq
  rw [goToLower_idem]
  exact beq_self_eq_true _

/-- Lowercasing the compared string does not change the ci comparison. -/
lemma mysqlCiEq_goToLower_right (a x : String) :
    mysqlCiEq a (goToLower x) = mysqlCiEq a x := by
  unfold mysqlCiEq
  rw [goToLower_idem]

/-- Claim C10, counterexample: with "Carol" registered (stored lowercased
as "carol") and both wallets present and funded, a Transfer addressed
with the originally-registered casing "Carol" resolves the destination
through the store's case-insensitive collation and SUCCEEDS — it does
not fail with NotFound as the claim asserts. -/
theorem transfer_to_cased_username_succeeds :
    findUserByUsername sysThreeUsers.store "Carol" = some userCarol ∧
      (TransferHandler sysThreeUsers 1 { ToUsername := "Carol", Amount := 25 }).1
        = .ok "Transfer successful" := by
  constructor
  · decide
  · decide

/-- Claim C10, amended: registration stores the username lowercased, but
the `username = ?` lookup compares under the store's default
case-insensitive collation, so a Transfer addressed with the
originally-registered casing (containing an uppercase letter) still
resolves the destination: after registering such a username into a
store holding no ci-equal name, the raw request string finds the new
lowercased row, and the call can fail only for reasons other than
"Target user not found". -/
theorem register_then_transfer_cased_resolves
    (s : Sys) (fromUserID : Nat) (req : RegisterRequest) (amount : ℚ)
    (hcase : goToLower req.Username ≠ req.Username)
    (hvalidU : isValidUsername req.Username = true)
    (hvalidP : isValidPassword req.Password = true)
    (hfresh : s.store.users.find?
        (fun u => mysqlCiEq u.Username (goToLower req.Username)) = none)
    (hamt : 0 < amount) :
    (RegisterHandler s req).1 = .ok "User registered successfully" ∧
      findUserByUsername (RegisterHandler s req).2.store req.Username
        = some { ID := s.store.nextUserID, Username := goToLower req.Username,
                 Password := req.Password, Role := "user" } ∧
      (TransferHandler (RegisterHandler s req).2 fromUserID
          { ToUsername := req.Username, Amount := amount }).1
        ≠ .error (.notFound "Target user not found") := by
  have husers : (RegisterHandler s req).2.store.users
      = s.store.users ++
        [{ ID := s.store.nextUserID, Username := goToLower req.Username,
           Password := req.Password, Role := "user" }] := by
    simp [RegisterHandler, hvalidU, hvalidP, hfresh]
  have hok : (RegisterHandler s req).1 = .ok "User registered successfully" := by
    simp [RegisterHandler, hvalidU, hvalidP, hfresh]
  have hfind : findUserByUsername (RegisterHandler s req).2.store req.Username
      = some { ID := s.store.nextUserID, Username := goToLower req.Username,
               Password := req.Password, Role := "user" } := by
    rw [findUserByUsername, husers, List.find?_append]
    have hnone : s.store.users.find? (fun u => mysqlCiEq u.Username req.Username) = none := by
      rw [List.find?_eq_none]
      intro u hu hbeq
      have hn := List.find?_eq_none.mp hfresh u hu
      rw [mysqlCiEq_goToLower_right] at hn
      exact hn hbeq
    rw [hnone]
    simp [List.find?, mysqlCiEq_goToLower_self]
  refine ⟨hok, hfind, ?_⟩
  have hne : transferCheck (RegisterHandler s req).2.store fromUserID
      { ToUsername := req.Username, Amount := amount }
        ≠ .error (.notFound "Target user not found") := by
    intro habs
    simp [transferCheck, hamt.not_le, hfind] at habs
    split at habs
    · simp at habs
    · split at habs
      · simp at habs
      · split at habs
        · simp at habs
        · split at habs
          · simp at habs
          · simp at habs
  unfold TransferHandler
  cases hc : transferCheck (RegisterHandler s req).2.store fromUserID
      { ToUsername := req.Username, Amount := amount } with
  | error e =>
    intro habs
    dsimp only at habs
    injection habs with he
    exact hne (he ▸ hc)
  | ok v => simp

/-- Witness for C10 amended: registering "Carol" into the two-user store
and transferring to "Carol". -/
theorem register_then_transfer_cased_resolves_witness :
    (RegisterHandler sysBothZero { Username := "Carol", Password := "password1" }).1
        = .ok "User registered successfully" ∧
      findUserByUsername (RegisterHandler sysBothZero
          { Username := "Carol", Password := "password1" }).2.store "Carol"
        = some { ID := 3, Username := goToLower "Carol",
                 Password := "password1", Role := "user" } ∧
      (TransferHandler (RegisterHandler sysBothZero
            { Username := "Carol", Password := "password1" }).2 1
          { ToUsername := "Carol", Amount := 25 }).1
        ≠ .error (.notFound "Target user not found") :=
  register_then_transfer_cased_resolves sysBothZero 1
    { Username := "Carol", Password := "password1" } 25
    (by decide) (by decide) (by decide) (by decide) (by decide)
